import Mathlib

/-!
Verification of the vue-image-loader library.

This file gives a shallow embedding of the two components of the repository,
the ImageLoader class (src/image-loader.js) and the ImageElementShell class
(src/image-element-shell.js), together with the string utilities of their
shared private `_actions` object, and proves properties of the embedding.

Conventions of the embedding:
- JavaScript strings are Lean `String` (or `List Char` for the character
  level regular-expression routines, which mirror the concrete regexes
  `/data:(.*);base64,/`, `/image\/(.*)/` and `/.*\.([a-zA-Z\d]+).*/` of the
  source, including leftmost-match and greedy-capture behaviour; `.` in
  these regexes does not match a newline).
- JavaScript fields that start out `undefined` and later hold a boolean are
  `Option Bool`; `truthy` is the JavaScript truthiness test on them.
- Asynchronous settlement of a promise is an explicit outcome value
  (`Bool`, `Settle`, `Except`), and browser callbacks (timer expiry, image
  load or error events, animation frames, the animationend event) are
  explicit transition functions on the state, sequenced in the order the
  single-threaded event loop runs them.
-/

namespace VueImageLoader

/-- Truthiness of a JavaScript value that is either `undefined` or a boolean. -/
def truthy : Option Bool → Bool
  | some b => b
  | none => false

/-! ### Character-level regular expression routines

The source uses three regexes.  They are embedded as executable functions on
`List Char` that implement exactly the leftmost-match, greedy semantics of
the JavaScript engine on these patterns. -/

/-- The literal characters of the string "data:" (the fixed head of
`BASE64_REG = /data:(.*);base64,/`). -/
def dataColon : List Char := ['d', 'a', 't', 'a', ':']

/-- The literal characters of the string ";base64," (the fixed tail of
`BASE64_REG`). -/
def b64Sep : List Char := [';', 'b', 'a', 's', 'e', '6', '4', ',']

/-- The literal characters of the string "image/" (the fixed head of the
mime-stripping regex `/image\/(.*)/` used by `getExtension`). -/
def imgSlash : List Char := ['i', 'm', 'a', 'g', 'e', '/']

/-- Boolean list-prefix test. -/
def isPfx : List Char → List Char → Bool
  | [], _ => true
  | _ :: _, [] => false
  | p :: ps, c :: cs => p = c && isPfx ps cs

/-- Number of positions of `cs` at which the pattern `pat` occurs. -/
def occCount (pat : List Char) : List Char → Nat
  | [] => 0
  | c :: cs => (if isPfx pat (c :: cs) then 1 else 0) + occCount pat cs

/-- Greedy capture of the fragment `(.*);base64,` of `BASE64_REG` at the
current position: the longest newline-free prefix of the input that is
immediately followed by ";base64,", if any (`.` does not match a newline,
and the greedy `(.*)` backtracks from the right, so the last such
occurrence on the line wins). -/
def greedyCap : List Char → Option (List Char)
  | [] => none
  | c :: cs =>
    if c = '\n' then
      if isPfx b64Sep (c :: cs) then some [] else none
    else
      match greedyCap cs with
      | some r => some (c :: r)
      | none => if isPfx b64Sep (c :: cs) then some [] else none

/-- The call `imageSrc.match(BASE64_REG)` of the source: the capture group of the
leftmost match of `/data:(.*);base64,/`, or `none` when the regex does not
match.  The engine tries each start position from the left; at a position
the literal "data:" must match, followed by the greedy capture. -/
def matchB64 : List Char → Option (List Char)
  | [] => none
  | c :: cs =>
    match (if isPfx dataColon (c :: cs) then greedyCap (List.drop 4 cs) else none) with
    | some r => some r
    | none => matchB64 cs

/-- The call of replace with `/image\/(.*)/` and `$1` in `getExtension` on the captured
mime string: the leftmost occurrence of "image/" together with the rest of
its line is replaced by that rest (the capture), so in effect the first
"image/" is deleted; a string with no "image/" is returned unchanged. -/
def replaceImage : List Char → List Char
  | [] => []
  | c :: cs =>
    if isPfx imgSlash (c :: cs) then
      (List.drop 5 cs).takeWhile (· ≠ '\n') ++ (List.drop 5 cs).dropWhile (· ≠ '\n')
    else c :: replaceImage cs

/-- The character class `[a-zA-Z\d]` of the extension regex. -/
def isAlnum (c : Char) : Bool := c.isAlpha || c.isDigit

/-- Capture of `/.*\.([a-zA-Z\d]+).*/` within one newline-free line: the
maximal alphanumeric run after the last dot that is followed by at least
one alphanumeric character (the leading greedy `.*` backtracks from the
right, so the last qualifying dot wins). -/
def lastDotCap : List Char → Option (List Char)
  | [] => none
  | c :: cs =>
    match lastDotCap cs with
    | some r => some r
    | none =>
      if c = '.' then
        match cs.takeWhile isAlnum with
        | [] => none
        | r => some r
      else none

/-- The call of replace with `/.*\.([a-zA-Z\d]+).*/` and `$1` in `getExtension`: on the
first line containing a dot followed by an alphanumeric character, the whole
line (the match) is replaced by the capture; a string with no such line is
returned unchanged. -/
def extReplace : List Char → List Char
  | [] => []
  | c :: cs =>
    if c = '\n' then c :: extReplace cs
    else
      match lastDotCap (List.takeWhile (· ≠ '\n') (c :: cs)) with
      | some cap => cap ++ List.dropWhile (· ≠ '\n') (c :: cs)
      | none => c :: extReplace cs

/-- ASCII lower-casing, the effect of `toLocaleLowerCase` on the ASCII
source strings handled here. -/
def toLowerL (cs : List Char) : List Char := cs.map Char.toLower

/-- The function `_actions.getExtension` at the character level: if the source matches
`BASE64_REG` the captured mime is stripped of its first "image/" and
lower-cased; otherwise the extension regex replace is applied to the whole
source and the result lower-cased. -/
def getExtensionL (cs : List Char) : List Char :=
  match matchB64 cs with
  | some mime => toLowerL (replaceImage mime)
  | none => toLowerL (extReplace cs)

/-- The function `_actions.getExtension` on strings. -/
def getExtension (s : String) : String := String.mk (getExtensionL s.data)

/-- Strict-equality membership of a string in a list of strings: the
`indexOf(x) >= 0` test of the source (also used below for the shared
success cache). -/
def listHas (l : List String) (s : String) : Bool :=
  match l with
  | [] => false
  | a :: r => (a = s) || listHas r s

/-- The property names that every plain JavaScript object literal inherits
from `Object.prototype` (including the Annex B accessors present in
browsers).  Looking any of these up on the `MIME_TYPE` literal yields the
inherited function or object, which is not `undefined`. -/
def objectProtoKeys : List String :=
  ["constructor", "hasOwnProperty", "isPrototypeOf", "propertyIsEnumerable",
   "toLocaleString", "toString", "valueOf", "__proto__",
   "__defineGetter__", "__defineSetter__", "__lookupGetter__", "__lookupSetter__"]

/-- Result of the JavaScript property read `MIME_TYPE[ext]`: `undefined`,
one of the four own mime-type entries of the literal, or a non-undefined
value inherited from `Object.prototype` (such as the `toString` function). -/
inductive MimeLookup
  | undefined
  | mime (s : String)
  | protoValue (name : String)
deriving DecidableEq

/-- The function `_actions.getMimeType`: the property read `MIME_TYPE[ext]`
on the literal object with own keys "jpg", "jepg", "png" and "webp".  An
own key wins; otherwise the lookup walks the prototype chain, so the
`Object.prototype` property names yield inherited non-undefined values and
every other key yields `undefined`. -/
def getMimeType (ext : String) : MimeLookup :=
  if ext = "jpg" then .mime "image/jpeg"
  else if ext = "jepg" then .mime "image/jpeg"
  else if ext = "png" then .mime "image/png"
  else if ext = "webp" then .mime "image/webp"
  else if listHas objectProtoKeys ext then .protoValue ext
  else .undefined

/-! ### The ImageLoader class (src/image-loader.js) -/

/-- The `_status` field of an ImageLoader: `undefined` initially, then the
string "success" or "fail" set by the load and error event handlers. -/
inductive LoadStatus
  | unset
  | success
  | fail
deriving DecidableEq

/-- State of one ImageLoader instance.  `currentSrc` is `_currentSrc`
(`undefined` before the first call), `status` is `_status`, `loaded` is
`_loaded`, and `hasImage` / `hasBlob` record whether the `$image` / `$blob`
handles are non-null. -/
structure LoaderState where
  currentSrc : Option String
  status : LoadStatus
  loaded : Option Bool
  hasImage : Bool
  hasBlob : Bool
deriving DecidableEq

/-- The fresh loader built by the ImageLoader constructor: every field is
`undefined`. -/
def ImageLoader.init : LoaderState :=
  { currentSrc := none, status := .unset, loaded := none,
    hasImage := false, hasBlob := false }

/-- The synchronous part of `ImageLoader#load(imageSrc)`: if the request is
not for the same resource the cached blob is cleared
(`isSameResource` compares `imageSrc` with `$currentSrc`), then
`_currentSrc` is set and a fresh browser image is created and bound. -/
def ImageLoader.loadStart (ld : LoaderState) (src : String) : LoaderState :=
  let ld := if some src = ld.currentSrc then ld else { ld with hasBlob := false }
  { ld with currentSrc := some src, hasImage := true }

/-- The handler of the image load event inside `ImageLoader#load`: marks
`_status` to the string "success"; if `$currentSrc` is already in the shared
`loadedImageList` it sets `_loaded = true`, otherwise it sets
`_loaded = false` and pushes `$currentSrc` onto the list.  (The event
always follows `loadStart`, which sets `currentSrc`; the `none` branch
models the unreachable undefined case, whose `indexOf` lookup misses.) -/
def ImageLoader.loadSuccess (ld : LoaderState) (cache : List String) :
    LoaderState × List String :=
  match ld.currentSrc with
  | some src =>
    if listHas cache src then ({ ld with status := .success, loaded := some true }, cache)
    else ({ ld with status := .success, loaded := some false }, cache ++ [src])
  | none => ({ ld with status := .success, loaded := some false }, cache)

/-- The handler of the image error event inside `ImageLoader#load`: marks
`_status` to the string "fail" and leaves `_loaded` untouched. -/
def ImageLoader.loadFail (ld : LoaderState) : LoaderState :=
  { ld with status := .fail }

/-- One whole `ImageLoader#load(src)` call whose browser image settles with
outcome `ok`: the synchronous start followed by the load or error event.
Returns the new loader state and the new shared success cache. -/
def ImageLoader.loadCall (ld : LoaderState) (cache : List String) (src : String)
    (ok : Bool) : LoaderState × List String :=
  let ld := ImageLoader.loadStart ld src
  if ok then ImageLoader.loadSuccess ld cache else (ImageLoader.loadFail ld, cache)

/-! ### `_actions.ajax` and `ImageLoader#fetch` -/

/-- Outcome of the browser XMLHttpRequest: either the error event (transport
failure) or the load event with the final `readyState` and `status`. -/
inductive XhrOutcome
  | transportError
  | completed (readyState : Nat) (status : Nat)
deriving DecidableEq

/-- The test `xhr.readyState !== 4 | xhr.status !== 200` of `_actions.ajax`
(a bitwise or of two coerced booleans, truthy when nonzero). -/
def ajaxRejects (readyState status : Nat) : Bool :=
  Nat.lor (if readyState ≠ 4 then 1 else 0) (if status ≠ 200 then 1 else 0) != 0

/-- Whether the `_actions.ajax` promise resolves: the load event must fire
and the reject test must not pass; the error event always rejects. -/
def ajaxSettles (x : XhrOutcome) : Bool :=
  match x with
  | .transportError => false
  | .completed rs st => !(ajaxRejects rs st)

/-- Settlement of a promise. -/
inductive Settle
  | resolved
  | rejected
deriving DecidableEq

/-- Settlement of `ImageLoader#fetch(imageSrc)` in terms of the XHR outcome
and the outcome of the delegated `load` call: a base64 source converts the
data URL to a blob locally and delegates to `load`; otherwise the bytes are
fetched by `_actions.ajax`, whose rejection rejects `fetch`, and whose
resolution stores the blob and delegates to `load`. -/
def ImageLoader.fetchSettle (src : String) (x : XhrOutcome) (loadOk : Bool) : Settle :=
  if (matchB64 src.data).isSome then
    (if loadOk then .resolved else .rejected)
  else if ajaxSettles x then
    (if loadOk then .resolved else .rejected)
  else .rejected

/-! ### `ImageLoader#base64` and `_actions.canvasToDataURL` -/

/-- The getter `$ext` of the loader: `this.$image && getExtension(this.$currentSrc)`. -/
def ImageLoader.ext (ld : LoaderState) : Option String :=
  if ld.hasImage then ld.currentSrc.map getExtension else none

/-- The mime type handed to `canvas.toDataURL` by `_actions.canvasToDataURL`:
`format ? getMimeType(format) : getMimeType(self.$ext)` (an absent or empty
`format` string is falsy; a null `$ext` coerces to the key "null", which is
neither an own key of the literal nor an `Object.prototype` property, so
the lookup yields `undefined`). -/
def canvasToDataURLMime (ld : LoaderState) (format : Option String) : MimeLookup :=
  match format with
  | some f =>
    if f ≠ "" then getMimeType f
    else match ImageLoader.ext ld with
      | some e => getMimeType e
      | none => getMimeType "null"
  | none => match ImageLoader.ext ld with
    | some e => getMimeType e
    | none => getMimeType "null"

/-- Settlement of `ImageLoader#base64(format)`: rejection with the
no-resource message, direct resolution with the current source, or
resolution with a canvas export (recording the mime type passed to
`toDataURL`). -/
inductive B64Out
  | rejectedNoResource
  | direct (src : String)
  | canvas (mime : MimeLookup)
deriving DecidableEq

/-- The method `ImageLoader#base64(format)`: if neither `$blob` nor `$image` exists the
promise is rejected (the executor keeps running but the first settlement
wins); otherwise, if `$currentSrc` matches `BASE64_REG` the promise resolves
with `$currentSrc` verbatim, else with the canvas re-encode
`_actions.canvasToDataURL(this, this.$image, format)`.  (An undefined
`$currentSrc` would make `.match` throw, rejecting the promise; it is
always set once a resource handle exists.) -/
def ImageLoader.base64 (ld : LoaderState) (format : Option String) : B64Out :=
  if !ld.hasBlob && !ld.hasImage then .rejectedNoResource
  else match ld.currentSrc with
    | some src =>
      if (matchB64 src.data).isSome then .direct src
      else .canvas (canvasToDataURLMime ld format)
    | none => .rejectedNoResource

/-! ### The ImageElementShell class (src/image-element-shell.js) -/

/-- The built-in transparent placeholder image
(`TRANSPARENT_PLACEHOLDER_IMAGE`). -/
def TRANSPARENT_PLACEHOLDER_IMAGE : String :=
  "data:image/png;base64,iVBORw0KGgoAAAANSUhEUgAAAAEAAAABCAYAAAAfFcSJAAAACXBIWXMAAAsTAAALEwEAmpwYAAAAGXRFWHRTb2Z0d2FyZQBBZG9iZSBJbWFnZVJlYWR5ccllPAAAABBJREFUeNpi/P//PwNAgAEACQEC/2m8kPAAAAAASUVORK5CYII="

/-- The `$options` snapshot of a shell (defaults merged with the options of
the construction site).  Absent string options are modelled as "", which is
what `validation.isEmpty` treats as empty. -/
structure ShellOptions where
  originSrc : String
  originClassName : String
  placeholder : String
  loadingPlaceholder : String
  loadingDelay : Nat
  animationClassName : String
  animate : Bool
  force : Bool
deriving DecidableEq

/-- The split of `originClassName` on the space character done by the constructor (JavaScript split keeps
empty segments, so "" splits to a single empty segment). -/
def splitSp : List Char → List (List Char)
  | [] => [[]]
  | c :: cs =>
    if c = ' ' then [] :: splitSp cs
    else match splitSp cs with
      | h :: t => (c :: h) :: t
      | [] => [[c]]

/-- The field `_originClassNameList`, the split of the original class attribute. -/
def splitClassNames (s : String) : List String :=
  (splitSp s.data).map String.mk

/-- State of one ImageElementShell instance together with the piece of the
DOM it owns.  `parentNodeSet` / `placeholderNodeSet` record whether
`_parentNode` / `_placeholderNode` are non-null, `wrapperCount` counts the
wrapper container nodes currently in the document, `timer` is the pending
`_loadingTimeouter` with its delay, `animEndBound` records whether the
animationend handler is bound, `elClassList` is the class attribute of the
bound element (as the list that `setClassName` joins) and `elSrc` the image
source painted on it. -/
structure ShellState where
  opts : ShellOptions
  originClassList : List String
  currentSrc : Option String
  actualSrc : Option String
  loaded : Option Bool
  canAnimate : Option Bool
  animationing : Option Bool
  parentNodeSet : Bool
  placeholderNodeSet : Bool
  wrapperCount : Nat
  timer : Option Nat
  animEndBound : Bool
  elClassList : List String
  elSrc : Option String
deriving DecidableEq

/-- The function `_actions.createContainerDom`: builds the placeholder span and the
wrapper container around the element, sets `_parentNode` and
`_placeholderNode`. -/
def createContainerDom (s : ShellState) : ShellState :=
  { s with parentNodeSet := true, placeholderNodeSet := true,
           wrapperCount := s.wrapperCount + 1 }

/-- The function `_actions.removeContainerDom`: returns early when either node handle is
null or `_animationing` is truthy; otherwise moves the element back, removes
the wrapper and the placeholder span and nulls both handles. -/
def removeContainerDom (s : ShellState) : ShellState :=
  if !s.parentNodeSet || !s.placeholderNodeSet || truthy s.animationing then s
  else { s with parentNodeSet := false, placeholderNodeSet := false,
                wrapperCount := s.wrapperCount - 1 }

/-- Expiry of the `_loadingTimeouter` armed by the constructor: runs
`createContainerDom`.  A cancelled or absent timer never fires. -/
def timerFire (s : ShellState) : ShellState :=
  match s.timer with
  | some _ => createContainerDom { s with timer := none }
  | none => s

/-- The function `_actions.successHandler` (the loader load-event callback): clears the
pending timer, removes the wrapper and paints `$currentSrc` onto the
element. -/
def successHandler (s : ShellState) : ShellState :=
  let s1 := removeContainerDom { s with timer := none }
  { s1 with elSrc := s1.currentSrc }

/-- The function `_actions.failHandler` (the loader error-event callback): clears the
pending timer, removes the wrapper, replaces `_currentSrc` with the
configured placeholder — or with the built-in transparent image when the
source that just failed was the placeholder itself — and issues
`_imageLoader.load` on that fallback source (returned as the second
component). -/
def failHandler (s : ShellState) : ShellState × String :=
  let s1 := removeContainerDom { s with timer := none }
  let fb := if s1.currentSrc = some s1.opts.placeholder
            then TRANSPARENT_PLACEHOLDER_IMAGE else s1.opts.placeholder
  ({ s1 with currentSrc := some fb }, fb)

/-- The function `_actions.setClassName`: sets the class attribute to the original class
list extended by one class name. -/
def setShellClassName (s : ShellState) (cls : String) : ShellState :=
  { s with elClassList := s.originClassList ++ [cls] }

/-- The function `_actions.startAnimationing`: returns early when `$currentSrc` differs
from `$actualSrc`, or when `_canAnimate` is truthy, animation is disabled or
no animation class is configured; otherwise it requests an animation frame.
The second component tells whether the frame was requested (the state only
changes inside the frame callbacks, modelled by `rafEnter` and
`rafEnterActive`). -/
def startAnimationing (s : ShellState) : ShellState × Bool :=
  if s.currentSrc ≠ s.actualSrc then (s, false)
  else if truthy s.canAnimate || !s.opts.animate || s.opts.animationClassName = ""
  then (s, false)
  else (s, true)

/-- The first animation-frame callback of `startAnimationing`: marks
`_animationing = true` and applies the class `<name>-enter`. -/
def rafEnter (s : ShellState) : ShellState :=
  setShellClassName { s with animationing := some true }
    (s.opts.animationClassName ++ "-enter")

/-- The nested (second) animation-frame callback: applies the class
`<name>-enter-active`. -/
def rafEnterActive (s : ShellState) : ShellState :=
  setShellClassName s (s.opts.animationClassName ++ "-enter-active")

/-- The browser animationend event on the element: when the handler bound by
`setAnimationEndHandler` is still attached it marks `_animationing = false`
and `_loaded = true`, applies the class `<name>-enter-end`, detaches itself
and removes the wrapper. -/
def animEndEvent (s : ShellState) : ShellState :=
  if s.animEndBound then
    removeContainerDom
      (setShellClassName
        { s with animationing := some false, loaded := some true,
                 animEndBound := false }
        (s.opts.animationClassName ++ "-enter-end"))
  else s

/-- The ImageElementShell constructor: snapshots the options, paints the
transparent placeholder, splits the original class list, binds the
animationend handler when animation is enabled and a class is configured
(`setAnimationEndHandler`), and arms the wrapper timer for `loadingDelay`
milliseconds exactly when the original source is empty and a loading
placeholder is configured. -/
def ImageElementShell.construct (o : ShellOptions) : ShellState :=
  { opts := o
    originClassList := splitClassNames o.originClassName
    currentSrc := none, actualSrc := none
    loaded := none, canAnimate := none, animationing := none
    parentNodeSet := false, placeholderNodeSet := false, wrapperCount := 0
    timer := if o.originSrc = "" ∧ o.loadingPlaceholder ≠ "" then some o.loadingDelay else none
    animEndBound := o.animate && o.animationClassName ≠ ""
    elClassList := splitClassNames o.originClassName
    elSrc := some TRANSPARENT_PLACEHOLDER_IMAGE }

/-- The synchronous head of `ImageElementShell#load(actualSrc)`: records
`_actualSrc` and `_currentSrc`. -/
def shellLoadStart (s : ShellState) (src : String) : ShellState :=
  { s with actualSrc := some src, currentSrc := some src }

/-- The fulfilled continuation of `ImageElementShell#load`: sets
`_canAnimate = this.$loaded && this._imageLoader.$loaded && !this.$force`
(and then calls `startAnimationing`). -/
def thenCont (s : ShellState) (loaderLoaded : Option Bool) : ShellState :=
  { s with canAnimate := some (truthy s.loaded && truthy loaderLoaded && !s.opts.force) }

/-- The rejected continuation of `ImageElementShell#load`: sets
`_canAnimate = false` and `_loaded = false`, then re-throws. -/
def catchCont (s : ShellState) : ShellState :=
  { s with canAnimate := some false, loaded := some false }

/-- A shell, its owned loader and the shared success cache. -/
structure Sys where
  shell : ShellState
  loader : LoaderState
  cache : List String
deriving DecidableEq

/-- One whole `ImageElementShell#load(src)` call whose underlying image
settles with outcome `ok`, sequenced as the event loop runs it:
the synchronous head, the loader call; then on success the loader emits
load (running `successHandler`) and resolves, after which the fulfilled
continuation sets `_canAnimate` and invokes `startAnimationing`; on failure
the loader emits error (running `failHandler`, which also starts the
fallback `_imageLoader.load`) and rejects, after which the rejected
continuation runs and the rejection propagates to the caller. -/
def shellLoadCall (sys : Sys) (src : String) (ok : Bool) : Sys × Except Unit Unit :=
  let sh := shellLoadStart sys.shell src
  let lc := ImageLoader.loadCall sys.loader sys.cache src ok
  if ok then
    let sh := successHandler sh
    let sh := thenCont sh lc.1.loaded
    let sh := (startAnimationing sh).1
    ({ shell := sh, loader := lc.1, cache := lc.2 }, Except.ok ())
  else
    let fh := failHandler sh
    let ld2 := ImageLoader.loadStart lc.1 fh.2
    let sh := catchCont fh.1
    ({ shell := sh, loader := ld2, cache := lc.2 }, Except.error ())

/-- The chain of fallback load requests issued by successive firings of
`failHandler`, given the settlement outcome of each issued load: a failure
outcome runs `failHandler`, which issues one more load on the fallback
source; a success outcome (or a still-pending load) issues nothing more. -/
def failChain (s : ShellState) : List Bool → List String
  | [] => []
  | ok :: rest =>
    if ok then []
    else
      let fh := failHandler s
      fh.2 :: failChain fh.1 rest

/-- All load requests issued by one `ImageElementShell#load(src)` call,
given the settlement outcomes of the successive loads: the initial request
followed by the fallback chain. -/
def shellLoadRequests (s : ShellState) (src : String) (outs : List Bool) : List String :=
  src :: failChain (shellLoadStart s src) outs

/-! ### The event alphabet of a shell run -/

/-- The browser callbacks that can act on a shell after construction. -/
inductive Ev
  | timer
  | success
  | fail
  | loadStart (src : String)
  | thenC (loaderLoaded : Option Bool)
  | catchC
  | rafA
  | rafB
  | animEnd
deriving DecidableEq

/-- One event step on a shell. -/
def step (s : ShellState) : Ev → ShellState
  | .timer => timerFire s
  | .success => successHandler s
  | .fail => (failHandler s).1
  | .loadStart src => shellLoadStart s src
  | .thenC lb => thenCont s lb
  | .catchC => catchCont s
  | .rafA => rafEnter s
  | .rafB => rafEnterActive s
  | .animEnd => animEndEvent s

/-- A run of events on a shell. -/
def run (s : ShellState) : List Ev → ShellState
  | [] => s
  | e :: r => run (step s e) r

/-- Number of steps of a run that remove a wrapper container node. -/
def removalSteps (s : ShellState) : List Ev → Nat
  | [] => 0
  | e :: r =>
    (if (step s e).wrapperCount < s.wrapperCount then 1 else 0) + removalSteps (step s e) r

/-! ## Lemmas about the regular-expression routines -/

lemma isPfx_append (p t : List Char) : isPfx p (p ++ t) = true := by
  induction p with
  | nil => rfl
  | cons c cs ih => simp [isPfx, ih]

lemma occCount_cons (pat : List Char) (c : Char) (cs : List Char) :
    occCount pat (c :: cs) = (if isPfx pat (c :: cs) then 1 else 0) + occCount pat cs := rfl

lemma greedyCap_cons (c : Char) (cs : List Char) :
    greedyCap (c :: cs) =
      if c = '\n' then
        if isPfx b64Sep (c :: cs) then some [] else none
      else
        match greedyCap cs with
        | some r => some (c :: r)
        | none => if isPfx b64Sep (c :: cs) then some [] else none := rfl

lemma greedyCap_of_occCount_zero :
    ∀ cs : List Char, occCount b64Sep cs = 0 → greedyCap cs = none := by
  intro cs
  induction cs with
  | nil => intro _; rfl
  | cons c cs ih =>
    intro h
    simp only [occCount] at h
    by_cases hp : isPfx b64Sep (c :: cs) = true
    · rw [hp] at h; simp at h
    · have hp' : isPfx b64Sep (c :: cs) = false := by
        cases hpb : isPfx b64Sep (c :: cs)
        · rfl
        · exact absurd hpb hp
      rw [hp'] at h
      simp at h
      simp only [greedyCap]
      by_cases hc : c = '\n'
      · subst hc
        simp [hp']
      · simp [hc, hp', ih h]

lemma occCount_head (q : Char) (qs p : List Char) :
    occCount (q :: qs) ((q :: qs) ++ p) = 1 + occCount (q :: qs) (qs ++ p) := by
  rw [List.cons_append]
  simp only [occCount]
  rw [← List.cons_append, isPfx_append]
  simp

lemma occCount_pos (q : Char) (qs p : List Char) :
    ∀ m : List Char, 1 ≤ occCount (q :: qs) (m ++ ((q :: qs) ++ p)) := by
  intro m
  induction m with
  | nil => rw [List.nil_append, occCount_head]; omega
  | cons c m' ih =>
    rw [List.cons_append]
    simp only [occCount]
    omega

lemma greedyCap_canonical :
    ∀ (m p : List Char), (∀ c ∈ m, c ≠ '\n') →
      occCount b64Sep (m ++ (b64Sep ++ p)) = 1 →
      greedyCap (m ++ (b64Sep ++ p)) = some m := by
  intro m
  induction m with
  | nil =>
    intro p _ hocc
    rw [List.nil_append] at hocc ⊢
    have e : b64Sep ++ p = ';' :: (['b', 'a', 's', 'e', '6', '4', ','] ++ p) := rfl
    have hpfx : isPfx b64Sep (b64Sep ++ p) = true := isPfx_append _ _
    rw [e, occCount_cons, ← e, hpfx] at hocc
    simp at hocc
    have hnone : greedyCap (['b', 'a', 's', 'e', '6', '4', ','] ++ p) = none :=
      greedyCap_of_occCount_zero _ hocc
    rw [e, greedyCap_cons, hnone, ← e, hpfx]
    simp
  | cons c m' ih =>
    intro p hnl hocc
    have hc : c ≠ '\n' := hnl c (by simp)
    rw [List.cons_append, occCount_cons] at hocc
    have hpos : 1 ≤ occCount b64Sep (m' ++ (b64Sep ++ p)) := occCount_pos ';' _ p m'
    have hocc' : occCount b64Sep (m' ++ (b64Sep ++ p)) = 1 := by omega
    have ihm := ih p (fun x hx => hnl x (by simp [hx])) hocc'
    rw [List.cons_append, greedyCap_cons, ihm]
    simp [hc]

lemma matchB64_canonical (m p : List Char) (hnl : ∀ c ∈ m, c ≠ '\n')
    (hocc : occCount b64Sep (m ++ (b64Sep ++ p)) = 1) :
    matchB64 (dataColon ++ (m ++ (b64Sep ++ p))) = some m := by
  have e : dataColon ++ (m ++ (b64Sep ++ p))
      = 'd' :: (['a', 't', 'a', ':'] ++ (m ++ (b64Sep ++ p))) := rfl
  have hpfx : isPfx dataColon ('d' :: (['a', 't', 'a', ':'] ++ (m ++ (b64Sep ++ p)))) = true := by
    rw [← e]; exact isPfx_append dataColon _
  have hd : List.drop 4 (['a', 't', 'a', ':'] ++ (m ++ (b64Sep ++ p))) = m ++ (b64Sep ++ p) := rfl
  rw [e]
  simp only [matchB64, hpfx, if_true, hd, greedyCap_canonical m p hnl hocc]

lemma replaceImage_canonical (sub : List Char) :
    replaceImage (imgSlash ++ sub) = sub := by
  have e : imgSlash ++ sub = 'i' :: (['m', 'a', 'g', 'e', '/'] ++ sub) := rfl
  have hpfx : isPfx imgSlash ('i' :: (['m', 'a', 'g', 'e', '/'] ++ sub)) = true := by
    rw [← e]; exact isPfx_append imgSlash sub
  have hd : List.drop 5 (['m', 'a', 'g', 'e', '/'] ++ sub) = sub := rfl
  rw [e, replaceImage, hpfx]
  simp only [if_true, hd, List.takeWhile_append_dropWhile]

/-- Claim C7: for every source of the form `data:<mime>;base64,<payload>`,
`getExtension` returns the subtype of the mime (the part after the slash)
lower-cased.  REFUTED: the mime-stripping replace `/image\/(.*)/` only
deletes a literal "image/", so a mime such as "text/plain" is returned
whole; `getExtension "data:text/plain;base64,AAA"` is "text/plain", while
the claim predicts the subtype "plain". -/
theorem claim_C7_counterexample :
    getExtension "data:text/plain;base64,AAA" = "text/plain" ∧
    getExtension "data:text/plain;base64,AAA" ≠ "plain" := by
  exact ⟨by decide, by decide⟩

/-- Claim C7, amended: for every source of the form
`data:image/<subtype>;base64,<payload>` whose subtype is newline-free and in
which ";base64," occurs only once, `getExtension` returns the subtype
lower-cased; a general (non-image) mime is returned whole, lower-cased, as
the counterexample shows. -/
theorem claim_C7_amended (sub p : List Char)
    (hnl : ∀ c ∈ sub, c ≠ '\n')
    (hocc : occCount b64Sep ((imgSlash ++ sub) ++ (b64Sep ++ p)) = 1) :
    getExtensionL (dataColon ++ ((imgSlash ++ sub) ++ (b64Sep ++ p))) = toLowerL sub := by
  have hm : ∀ c ∈ imgSlash ++ sub, c ≠ '\n' := by
    intro c hcmem
    rcases List.mem_append.mp hcmem with h | h
    · simp [imgSlash] at h
      rcases h with rfl | rfl | rfl | rfl | rfl | rfl <;> decide
    · exact hnl c h
  have h1 := matchB64_canonical (imgSlash ++ sub) p hm hocc
  rw [getExtensionL, h1]
  show toLowerL (replaceImage (imgSlash ++ sub)) = toLowerL sub
  rw [replaceImage_canonical]

/-- Witness for the amended claim C7 at subtype "png" and payload "A". -/
theorem claim_C7_amended_witness :
    (∀ c ∈ ['p', 'n', 'g'], c ≠ '\n') ∧
    occCount b64Sep ((imgSlash ++ ['p', 'n', 'g']) ++ (b64Sep ++ ['A'])) = 1 ∧
    getExtensionL (dataColon ++ ((imgSlash ++ ['p', 'n', 'g']) ++ (b64Sep ++ ['A'])))
      = toLowerL ['p', 'n', 'g'] :=
  ⟨by decide, by decide, claim_C7_amended ['p', 'n', 'g'] ['A'] (by decide) (by decide)⟩

/-- Claim C10: `getMimeType` maps only the four extensions "jpg", "jepg",
"png" and "webp" to a mime type and returns `undefined` for every other
input.  REFUTED: JavaScript property lookup walks the prototype chain, so
`MIME_TYPE["toString"]` is the inherited `Object.prototype.toString`
function and `MIME_TYPE["__proto__"]` is `Object.prototype` — both
non-undefined. -/
theorem claim_C10_counterexample :
    getMimeType "toString" = MimeLookup.protoValue "toString" ∧
    getMimeType "toString" ≠ MimeLookup.undefined ∧
    getMimeType "__proto__" ≠ MimeLookup.undefined := by
  refine ⟨by decide, by decide, by decide⟩

/-- Claim C10, amended: `getMimeType` maps the four extensions "jpg",
"jepg", "png" and "webp" to a mime type; every other input — in particular
the standard spelling "jpeg", so a canvas export of a ".jpeg" source gets
an undefined mime type — yields `undefined`, except the
`Object.prototype` property names (such as "toString" and "__proto__"),
whose lookup yields the inherited non-undefined value. -/
theorem claim_C10_amended :
    getMimeType "jpg" = MimeLookup.mime "image/jpeg" ∧
    getMimeType "jepg" = MimeLookup.mime "image/jpeg" ∧
    getMimeType "png" = MimeLookup.mime "image/png" ∧
    getMimeType "webp" = MimeLookup.mime "image/webp" ∧
    getMimeType "jpeg" = MimeLookup.undefined ∧
    (∀ s : String, s ≠ "jpg" → s ≠ "jepg" → s ≠ "png" → s ≠ "webp" →
      listHas objectProtoKeys s = false → getMimeType s = MimeLookup.undefined) ∧
    (∀ s : String, s ≠ "jpg" → s ≠ "jepg" → s ≠ "png" → s ≠ "webp" →
      listHas objectProtoKeys s = true → getMimeType s = MimeLookup.protoValue s) ∧
    getExtension "photo.jpeg" = "jpeg" ∧
    (∀ ld : LoaderState, ld.hasImage = true → ld.currentSrc = some "photo.jpeg" →
      canvasToDataURLMime ld none = MimeLookup.undefined) := by
  refine ⟨by decide, by decide, by decide, by decide, by decide, ?_, ?_, by decide, ?_⟩
  · intro s h1 h2 h3 h4 h5
    simp [getMimeType, h1, h2, h3, h4, h5]
  · intro s h1 h2 h3 h4 h5
    simp [getMimeType, h1, h2, h3, h4, h5]
  · intro ld h1 h2
    simp only [canvasToDataURLMime, ImageLoader.ext, h1, if_true, h2, Option.map_some]
    decide

/-- Witness for the amended claim C10 at the miss "gif", the inherited
property name "toString", and a loader that holds a ".jpeg" image. -/
theorem claim_C10_amended_witness :
    (listHas objectProtoKeys "gif" = false ∧ getMimeType "gif" = MimeLookup.undefined) ∧
    (listHas objectProtoKeys "toString" = true ∧
      getMimeType "toString" = MimeLookup.protoValue "toString") ∧
    canvasToDataURLMime
      { currentSrc := some "photo.jpeg", status := .success, loaded := some false,
        hasImage := true, hasBlob := false } none = MimeLookup.undefined := by
  obtain ⟨-, -, -, -, -, h6, h7, -, h9⟩ := claim_C10_amended
  refine ⟨⟨by decide, ?_⟩, ⟨by decide, ?_⟩, h9 _ rfl rfl⟩
  · exact h6 "gif" (by decide) (by decide) (by decide) (by decide) (by decide)
  · exact h7 "toString" (by decide) (by decide) (by decide) (by decide) (by decide)

/-! ## Lemmas about the loader -/

lemma listHas_append_self (l : List String) (x : String) : listHas (l ++ [x]) x = true := by
  induction l with
  | nil => simp [listHas]
  | cons a r ih => simp [listHas, ih]

lemma loadCall_true_loaded (ld : LoaderState) (cache : List String) (src : String) :
    (ImageLoader.loadCall ld cache src true).1.loaded = some (listHas cache src) := by
  unfold ImageLoader.loadCall ImageLoader.loadStart ImageLoader.loadSuccess
  by_cases hb : some src = ld.currentSrc <;> by_cases h : listHas cache src <;> simp [hb, h]

lemma loadCall_true_cache (ld : LoaderState) (cache : List String) (src : String) :
    (ImageLoader.loadCall ld cache src true).2
      = if listHas cache src then cache else cache ++ [src] := by
  unfold ImageLoader.loadCall ImageLoader.loadStart ImageLoader.loadSuccess
  by_cases hb : some src = ld.currentSrc <;> by_cases h : listHas cache src <;> simp [hb, h]

/-- Claim C3: a successful `ImageLoader#load(src)` yields `$loaded = true`
exactly when `src` is already in the shared success cache, else
`$loaded = false` and `src` is recorded; hence two successive successful
loads of a fresh `src` yield `false` then `true`, and a fresh `src2` after a
prior success yields `false`.  CONFIRMED. -/
theorem claim_C3 (ld : LoaderState) (cache : List String) (src src2 : String) :
    (listHas cache src = true →
      (ImageLoader.loadCall ld cache src true).1.loaded = some true) ∧
    (listHas cache src = false →
      (ImageLoader.loadCall ld cache src true).1.loaded = some false ∧
      listHas (ImageLoader.loadCall ld cache src true).2 src = true) ∧
    (listHas cache src = false →
      (ImageLoader.loadCall (ImageLoader.loadCall ld cache src true).1
        (ImageLoader.loadCall ld cache src true).2 src true).1.loaded = some true) ∧
    (listHas (ImageLoader.loadCall ld cache src true).2 src2 = false →
      (ImageLoader.loadCall (ImageLoader.loadCall ld cache src true).1
        (ImageLoader.loadCall ld cache src true).2 src2 true).1.loaded = some false) := by
  refine ⟨?_, ?_, ?_, ?_⟩
  · intro h; rw [loadCall_true_loaded, h]
  · intro h
    refine ⟨by rw [loadCall_true_loaded, h], ?_⟩
    rw [loadCall_true_cache]
    simp [h, listHas_append_self]
  · intro h
    rw [loadCall_true_loaded, loadCall_true_cache]
    simp [h, listHas_append_self]
  · intro h
    rw [loadCall_true_loaded, h]

/-- Witness for claim C3: a fresh source "a" then the same source again,
and a fresh source "b" after the success. -/
theorem claim_C3_witness :
    listHas [] "a" = false ∧
    (ImageLoader.loadCall ImageLoader.init [] "a" true).1.loaded = some false ∧
    (ImageLoader.loadCall (ImageLoader.loadCall ImageLoader.init [] "a" true).1
      (ImageLoader.loadCall ImageLoader.init [] "a" true).2 "a" true).1.loaded = some true ∧
    (ImageLoader.loadCall (ImageLoader.loadCall ImageLoader.init [] "a" true).1
      (ImageLoader.loadCall ImageLoader.init [] "a" true).2 "b" true).1.loaded = some false := by
  obtain ⟨-, h2, h3, h4⟩ := claim_C3 ImageLoader.init [] "a" "b"
  exact ⟨by decide, (h2 (by decide)).1, h3 (by decide), h4 (by decide)⟩

/-- Claim C6: `base64()` on a loader whose current source already matches
the base64 data-URL pattern resolves with that source unchanged and
performs no canvas re-encode.  CONFIRMED (for a loader holding an image or
blob resource, which `base64` requires). -/
theorem claim_C6 (ld : LoaderState) (format : Option String) (src : String)
    (hres : (ld.hasBlob || ld.hasImage) = true)
    (hsrc : ld.currentSrc = some src)
    (hb64 : (matchB64 src.data).isSome = true) :
    ImageLoader.base64 ld format = B64Out.direct src := by
  have h1 : (!ld.hasBlob && !ld.hasImage) = false := by
    cases hB : ld.hasBlob <;> cases hI : ld.hasImage <;> simp_all
  simp [ImageLoader.base64, h1, hsrc, hb64]

/-- Witness for claim C6 at a loader with a loaded data-URL image. -/
theorem claim_C6_witness :
    (matchB64 "data:image/png;base64,AAA".data).isSome = true ∧
    ImageLoader.base64
      { currentSrc := some "data:image/png;base64,AAA", status := .success,
        loaded := some false, hasImage := true, hasBlob := false } none
      = B64Out.direct "data:image/png;base64,AAA" :=
  ⟨by decide, claim_C6 _ none _ (by decide) rfl (by decide)⟩

lemma ajaxSettles_completed (rs st : Nat) :
    ajaxSettles (XhrOutcome.completed rs st) = (decide (rs = 4) && decide (st = 200)) := by
  by_cases h1 : rs = 4 <;> by_cases h2 : st = 200 <;>
    simp [ajaxSettles, ajaxRejects, h1, h2]
  decide

/-- Claim C8: for a non-base64 source, `fetch(src)` rejects whenever the
XHR completes with a status other than 200 and on transport error, and it
resolves only when the XHR completes with status 200 (at readyState 4) and
the delegated load succeeds.  CONFIRMED. -/
theorem claim_C8 (src : String) (x : XhrOutcome) (loadOk : Bool)
    (h : matchB64 src.data = none) :
    (∀ rs st, x = XhrOutcome.completed rs st → st ≠ 200 →
      ImageLoader.fetchSettle src x loadOk = Settle.rejected) ∧
    (x = XhrOutcome.transportError →
      ImageLoader.fetchSettle src x loadOk = Settle.rejected) ∧
    (ImageLoader.fetchSettle src x loadOk = Settle.resolved →
      loadOk = true ∧ ∃ rs st, x = XhrOutcome.completed rs st ∧ rs = 4 ∧ st = 200) := by
  refine ⟨?_, ?_, ?_⟩
  · intro rs st hx hst
    subst hx
    simp [ImageLoader.fetchSettle, h, ajaxSettles_completed, hst]
  · intro hx
    subst hx
    simp [ImageLoader.fetchSettle, h, ajaxSettles]
  · intro hres
    cases x with
    | transportError => simp [ImageLoader.fetchSettle, h, ajaxSettles] at hres
    | completed rs st =>
      rw [ImageLoader.fetchSettle] at hres
      simp only [h, Option.isSome_none, Bool.false_eq_true, if_false,
        ajaxSettles_completed] at hres
      by_cases h1 : rs = 4 <;> by_cases h2 : st = 200 <;> simp [h1, h2] at hres
      cases loadOk with
      | false => simp at hres
      | true => exact ⟨rfl, rs, st, rfl, h1, h2⟩

/-- Witness for claim C8: a plain URL with a 404 completion is rejected. -/
theorem claim_C8_witness :
    matchB64 "pic.png".data = none ∧
    ImageLoader.fetchSettle "pic.png" (XhrOutcome.completed 4 404) true = Settle.rejected := by
  have h := claim_C8 "pic.png" (XhrOutcome.completed 4 404) true (by decide)
  exact ⟨by decide, h.1 4 404 rfl (by decide)⟩

/-! ## Lemmas about the shell -/

@[simp] lemma truthy_some (b : Bool) : truthy (some b) = b := rfl

@[simp] lemma truthy_none : truthy none = false := rfl

@[simp] lemma removeContainerDom_opts (s : ShellState) :
    (removeContainerDom s).opts = s.opts := by
  unfold removeContainerDom; split <;> rfl

@[simp] lemma removeContainerDom_originClassList (s : ShellState) :
    (removeContainerDom s).originClassList = s.originClassList := by
  unfold removeContainerDom; split <;> rfl

@[simp] lemma removeContainerDom_currentSrc (s : ShellState) :
    (removeContainerDom s).currentSrc = s.currentSrc := by
  unfold removeContainerDom; split <;> rfl

@[simp] lemma removeContainerDom_actualSrc (s : ShellState) :
    (removeContainerDom s).actualSrc = s.actualSrc := by
  unfold removeContainerDom; split <;> rfl

@[simp] lemma removeContainerDom_loaded (s : ShellState) :
    (removeContainerDom s).loaded = s.loaded := by
  unfold removeContainerDom; split <;> rfl

@[simp] lemma removeContainerDom_canAnimate (s : ShellState) :
    (removeContainerDom s).canAnimate = s.canAnimate := by
  unfold removeContainerDom; split <;> rfl

@[simp] lemma removeContainerDom_animationing (s : ShellState) :
    (removeContainerDom s).animationing = s.animationing := by
  unfold removeContainerDom; split <;> rfl

@[simp] lemma removeContainerDom_timer (s : ShellState) :
    (removeContainerDom s).timer = s.timer := by
  unfold removeContainerDom; split <;> rfl

@[simp] lemma removeContainerDom_animEndBound (s : ShellState) :
    (removeContainerDom s).animEndBound = s.animEndBound := by
  unfold removeContainerDom; split <;> rfl

@[simp] lemma removeContainerDom_elClassList (s : ShellState) :
    (removeContainerDom s).elClassList = s.elClassList := by
  unfold removeContainerDom; split <;> rfl

@[simp] lemma startAnimationing_fst (s : ShellState) :
    (startAnimationing s).1 = s := by
  unfold startAnimationing; split <;> [rfl; split <;> rfl]

lemma failHandler_opts (s : ShellState) : (failHandler s).1.opts = s.opts := by
  simp [failHandler]

lemma failHandler_currentSrc (s : ShellState) :
    (failHandler s).1.currentSrc = some (failHandler s).2 := by
  simp [failHandler]

lemma failHandler_fb (s : ShellState) (cur : String) (h : s.currentSrc = some cur) :
    (failHandler s).2
      = if cur = s.opts.placeholder then TRANSPARENT_PLACEHOLDER_IMAGE
        else s.opts.placeholder := by
  simp [failHandler, h]

/-! ## Claim C1 -/

lemma failChain_spec (outs : List Bool) :
    ∀ (s : ShellState) (cur : String), s.currentSrc = some cur →
      (failChain s outs).length = (outs.takeWhile (fun b => b = false)).length ∧
      List.Chain'
        (fun a b => b = (if a = s.opts.placeholder then TRANSPARENT_PLACEHOLDER_IMAGE
                         else s.opts.placeholder))
        (cur :: failChain s outs) := by
  induction outs with
  | nil => intro s cur _; simp [failChain]
  | cons ok rest ih =>
    intro s cur hcur
    cases ok with
    | true => simp [failChain]
    | false =>
      have hrec := ih (failHandler s).1 (failHandler s).2 (failHandler_currentSrc s)
      rw [failHandler_opts] at hrec
      constructor
      · simp [failChain, hrec.1]
      · show List.Chain' _ (cur :: (failHandler s).2 :: failChain (failHandler s).1 rest)
        rw [List.chain'_cons]
        exact ⟨failHandler_fb s cur hcur, hrec.2⟩

set_option maxRecDepth 20000 in
/-- Claim C1: every failed load through the shell triggers exactly one
fallback load using the configured placeholder — or the built-in
transparent image when the failed source was the placeholder itself — and
no further load is issued when the fallback fails too.  REFUTED: the
error handler runs again on the fallback failure and issues yet another
load (the second conjunct below shows a third request after two
failures). -/
theorem claim_C1_counterexample :
    shellLoadRequests (ImageElementShell.construct
        { originSrc := "", originClassName := "cls", placeholder := "ph",
          loadingPlaceholder := "lp", loadingDelay := 300,
          animationClassName := "fade", animate := true, force := false })
      "a" [false, false]
      = ["a", "ph", TRANSPARENT_PLACEHOLDER_IMAGE] ∧
    2 < (shellLoadRequests (ImageElementShell.construct
        { originSrc := "", originClassName := "cls", placeholder := "ph",
          loadingPlaceholder := "lp", loadingDelay := 300,
          animationClassName := "fade", animate := true, force := false })
      "a" [false, false]).length := by
  constructor
  · decide
  · decide

/-- Claim C1, amended: every failure event triggers exactly one fallback
load, computed as the configured placeholder — or the built-in transparent
image when the source that just failed was the placeholder itself; a
failing fallback therefore triggers a further fallback load (the chain
alternates), rather than stopping after the second failure. -/
theorem claim_C1_amended (s : ShellState) (src : String) (outs : List Bool) :
    (shellLoadRequests s src outs).length
      = 1 + (outs.takeWhile (fun b => b = false)).length ∧
    List.Chain'
      (fun a b => b = (if a = s.opts.placeholder then TRANSPARENT_PLACEHOLDER_IMAGE
                       else s.opts.placeholder))
      (shellLoadRequests s src outs) := by
  have h := failChain_spec outs (shellLoadStart s src) src rfl
  have hopts : (shellLoadStart s src).opts = s.opts := rfl
  rw [hopts] at h
  constructor
  · simp [shellLoadRequests, h.1]
    omega
  · simpa [shellLoadRequests] using h.2

/-! ## Claim C2 -/

lemma shellLoadCall_true_shell (sys : Sys) (src : String) :
    ((shellLoadCall sys src true).1).shell
      = thenCont (successHandler (shellLoadStart sys.shell src))
          ((ImageLoader.loadCall sys.loader sys.cache src true).1.loaded) := by
  simp [shellLoadCall]

/-- Claim C2: on a resolved `shell.load(src)` the code sets `_canAnimate`
to `this.$loaded && this._imageLoader.$loaded && !this.$force`; the claim
states the first conjunct negated ("the shell was NOT already loaded
once").  REFUTED on a fresh shell (never loaded) with the source already
in the dedup cache and force off: the claim predicts `canAnimate = true`,
the code computes `false`. -/
theorem claim_C2_counterexample :
    truthy (ImageElementShell.construct
      { originSrc := "", originClassName := "cls", placeholder := "ph",
        loadingPlaceholder := "lp", loadingDelay := 300,
        animationClassName := "fade", animate := true, force := false }).loaded = false ∧
    listHas ["a"] "a" = true ∧
    (ImageElementShell.construct
      { originSrc := "", originClassName := "cls", placeholder := "ph",
        loadingPlaceholder := "lp", loadingDelay := 300,
        animationClassName := "fade", animate := true, force := false }).opts.force = false ∧
    ((shellLoadCall
        { shell := ImageElementShell.construct
            { originSrc := "", originClassName := "cls", placeholder := "ph",
              loadingPlaceholder := "lp", loadingDelay := 300,
              animationClassName := "fade", animate := true, force := false },
          loader := ImageLoader.init, cache := ["a"] }
        "a" true).1).shell.canAnimate = some false := by
  refine ⟨by decide, by decide, by decide, by decide⟩

/-- Claim C2, amended: on every resolved `shell.load(src)` the flag
`canAnimate` is set, before the animation trigger is invoked, to
(the shell WAS already loaded once) AND (the loader dedup flag, i.e.
membership of `src` in the shared success cache before the call) AND
(the force flag is not set); on every rejected call the shell marks
`loaded = false` and propagates the rejection to the caller. -/
theorem claim_C2_amended (sys : Sys) (src : String) :
    ((shellLoadCall sys src true).1).shell.canAnimate
      = some (truthy sys.shell.loaded && listHas sys.cache src && !sys.shell.opts.force) ∧
    (shellLoadCall sys src true).2 = Except.ok () ∧
    ((shellLoadCall sys src false).1).shell.loaded = some false ∧
    (shellLoadCall sys src false).2 = Except.error () := by
  refine ⟨?_, by simp [shellLoadCall], ?_, by simp [shellLoadCall]⟩
  · rw [shellLoadCall_true_shell]
    simp [thenCont, successHandler, shellLoadStart, loadCall_true_loaded]
  · simp [shellLoadCall, catchCont]

/-! ## Claim C4 -/

/-- Claim C4: on a successful resolution with `currentSrc = actualSrc`,
animation enabled, a non-empty animation class configured and the shell not
loaded, the element class becomes the original classes plus `<name>-enter`
in the first animation-frame callback, `<name>-enter-active` in the
immediately following one, and `<name>-enter-end` at the animationend
event.  CONFIRMED (with the animationend handler bound, as the constructor
does under the same animate-and-class conditions). -/
theorem claim_C4 (sys : Sys) (src : String)
    (han : sys.shell.opts.animate = true)
    (hnm : sys.shell.opts.animationClassName ≠ "")
    (hld : truthy sys.shell.loaded = false)
    (hbd : sys.shell.animEndBound = true) :
    (startAnimationing ((shellLoadCall sys src true).1).shell).2 = true ∧
    (rafEnter ((shellLoadCall sys src true).1).shell).elClassList
      = sys.shell.originClassList ++ [sys.shell.opts.animationClassName ++ "-enter"] ∧
    (rafEnterActive (rafEnter ((shellLoadCall sys src true).1).shell)).elClassList
      = sys.shell.originClassList ++ [sys.shell.opts.animationClassName ++ "-enter-active"] ∧
    (animEndEvent (rafEnterActive (rafEnter ((shellLoadCall sys src true).1).shell))).elClassList
      = sys.shell.originClassList ++ [sys.shell.opts.animationClassName ++ "-enter-end"] := by
  have hsh := shellLoadCall_true_shell sys src
  refine ⟨?_, ?_, ?_, ?_⟩
  · rw [hsh]
    simp [startAnimationing, thenCont, successHandler, shellLoadStart, hld, han, hnm]
  · rw [hsh]
    simp [rafEnter, setShellClassName, thenCont, successHandler, shellLoadStart]
  · rw [hsh]
    simp [rafEnterActive, rafEnter, setShellClassName, thenCont, successHandler, shellLoadStart]
  · rw [hsh]
    simp [animEndEvent, rafEnterActive, rafEnter, setShellClassName, thenCont, successHandler,
      shellLoadStart, hbd]

/-- A concrete option set used by the witnesses: wrapper timer armed,
animation enabled. -/
def demoOptions : ShellOptions :=
  { originSrc := "", originClassName := "cls", placeholder := "ph",
    loadingPlaceholder := "lp", loadingDelay := 300,
    animationClassName := "fade", animate := true, force := false }

/-- The same options with no loading placeholder (timer never armed). -/
def demoOptionsNoLoading : ShellOptions :=
  { demoOptions with loadingPlaceholder := "" }

/-- Witness for claim C4 at a freshly constructed shell. -/
theorem claim_C4_witness :
    truthy (ImageElementShell.construct demoOptions).loaded = false ∧
    (rafEnter ((shellLoadCall
        { shell := ImageElementShell.construct demoOptions,
          loader := ImageLoader.init, cache := [] } "u" true).1).shell).elClassList
      = ["cls", "fade-enter"] := by
  have h := claim_C4
    { shell := ImageElementShell.construct demoOptions,
      loader := ImageLoader.init, cache := [] } "u" rfl (by decide) rfl (by decide)
  refine ⟨rfl, ?_⟩
  rw [h.2.1]
  decide

/-! ## Claim C5 -/

/-- The shell owns no wrapper: both DOM handles are null and no wrapper
node is in the document. -/
def noWrapperYet (s : ShellState) : Prop :=
  s.parentNodeSet = false ∧ s.placeholderNodeSet = false ∧ s.wrapperCount = 0

/-- The shell owns no wrapper and no pending timer, so no wrapper can ever
appear. -/
def noWrapperState (s : ShellState) : Prop :=
  s.timer = none ∧ noWrapperYet s

lemma removeContainerDom_of_noWrapperYet (s : ShellState) (h : noWrapperYet s) :
    removeContainerDom s = s := by
  simp [removeContainerDom, h.1]

lemma noWrapperYet_step (s : ShellState) (e : Ev) (he : e ≠ Ev.timer)
    (h : noWrapperYet s) : noWrapperYet (step s e) := by
  obtain ⟨h1, h2, h3⟩ := h
  cases e with
  | timer => exact absurd rfl he
  | success =>
    show noWrapperYet (successHandler s)
    simp [noWrapperYet, successHandler, removeContainerDom, h1, h2, h3]
  | fail =>
    show noWrapperYet (failHandler s).1
    simp [noWrapperYet, failHandler, removeContainerDom, h1, h2, h3]
  | loadStart src => exact ⟨h1, h2, h3⟩
  | thenC lb => exact ⟨h1, h2, h3⟩
  | catchC => exact ⟨h1, h2, h3⟩
  | rafA => exact ⟨h1, h2, h3⟩
  | rafB => exact ⟨h1, h2, h3⟩
  | animEnd =>
    show noWrapperYet (animEndEvent s)
    unfold animEndEvent
    split
    · simp [noWrapperYet, setShellClassName, removeContainerDom, h1, h2, h3]
    · exact ⟨h1, h2, h3⟩

lemma noWrapperYet_run (pre : List Ev) :
    ∀ s : ShellState, (∀ e ∈ pre, e ≠ Ev.timer) → noWrapperYet s →
      noWrapperYet (run s pre) := by
  induction pre with
  | nil => intro s _ h; exact h
  | cons e r ih =>
    intro s hp h
    exact ih (step s e) (fun x hx => hp x (by simp [hx]))
      (noWrapperYet_step s e (hp e (by simp)) h)

@[simp] lemma animEndEvent_timer (s : ShellState) :
    (animEndEvent s).timer = s.timer := by
  unfold animEndEvent; split <;> simp [setShellClassName]

lemma successHandler_noWrapperState (s : ShellState) (h : noWrapperYet s) :
    noWrapperState (successHandler s) := by
  obtain ⟨h1, h2, h3⟩ := h
  simp [noWrapperState, noWrapperYet, successHandler, removeContainerDom, h1, h2, h3]

lemma failHandler_noWrapperState (s : ShellState) (h : noWrapperYet s) :
    noWrapperState (failHandler s).1 := by
  obtain ⟨h1, h2, h3⟩ := h
  simp [noWrapperState, noWrapperYet, failHandler, removeContainerDom, h1, h2, h3]

lemma noWrapperState_step (s : ShellState) (e : Ev) (h : noWrapperState s) :
    noWrapperState (step s e) := by
  obtain ⟨ht, hy⟩ := h
  cases e with
  | timer =>
    show noWrapperState (timerFire s)
    unfold timerFire
    rw [ht]
    exact ⟨ht, hy⟩
  | success => exact successHandler_noWrapperState s hy
  | fail => exact failHandler_noWrapperState s hy
  | loadStart src =>
    exact ⟨ht, noWrapperYet_step s (Ev.loadStart src) (fun hx => Ev.noConfusion hx) hy⟩
  | thenC lb =>
    exact ⟨ht, noWrapperYet_step s (Ev.thenC lb) (fun hx => Ev.noConfusion hx) hy⟩
  | catchC =>
    exact ⟨ht, noWrapperYet_step s Ev.catchC (fun hx => Ev.noConfusion hx) hy⟩
  | rafA =>
    exact ⟨ht, noWrapperYet_step s Ev.rafA (fun hx => Ev.noConfusion hx) hy⟩
  | rafB =>
    exact ⟨ht, noWrapperYet_step s Ev.rafB (fun hx => Ev.noConfusion hx) hy⟩
  | animEnd =>
    refine ⟨?_, noWrapperYet_step s Ev.animEnd (fun hx => Ev.noConfusion hx) hy⟩
    show (animEndEvent s).timer = none
    rw [animEndEvent_timer]
    exact ht

lemma noWrapperState_run (post : List Ev) :
    ∀ s : ShellState, noWrapperState s → noWrapperState (run s post) := by
  induction post with
  | nil => intro s h; exact h
  | cons e r ih => intro s h; exact ih (step s e) (noWrapperState_step s e h)

/-- Claim C5: construction with an empty original source and a non-empty
loading placeholder arms a timer of exactly `loadingDelay` milliseconds
whose expiry creates the wrapper; a loader settlement (success or failure)
before the expiry cancels the timer and the wrapper is never created; a
shell with a non-empty original source or no loading placeholder never
arms the timer and never creates a wrapper.  CONFIRMED. -/
theorem claim_C5 (o : ShellOptions) :
    ((o.originSrc = "" ∧ o.loadingPlaceholder ≠ "") →
      (ImageElementShell.construct o).timer = some o.loadingDelay ∧
      (timerFire (ImageElementShell.construct o)).parentNodeSet = true ∧
      (timerFire (ImageElementShell.construct o)).wrapperCount = 1) ∧
    (∀ pre post : List Ev, (∀ e ∈ pre, e ≠ Ev.timer) →
      (successHandler (run (ImageElementShell.construct o) pre)).timer = none ∧
      (run (successHandler (run (ImageElementShell.construct o) pre)) post).wrapperCount = 0) ∧
    (∀ pre post : List Ev, (∀ e ∈ pre, e ≠ Ev.timer) →
      ((failHandler (run (ImageElementShell.construct o) pre)).1).timer = none ∧
      (run ((failHandler (run (ImageElementShell.construct o) pre)).1) post).wrapperCount = 0) ∧
    ((o.originSrc ≠ "" ∨ o.loadingPlaceholder = "") →
      (ImageElementShell.construct o).timer = none ∧
      ∀ evs : List Ev, (run (ImageElementShell.construct o) evs).wrapperCount = 0) := by
  have hy0 : noWrapperYet (ImageElementShell.construct o) := ⟨rfl, rfl, rfl⟩
  refine ⟨?_, ?_, ?_, ?_⟩
  · rintro ⟨h1, h2⟩
    have ht : (ImageElementShell.construct o).timer = some o.loadingDelay := by
      simp [ImageElementShell.construct, h1, h2]
    refine ⟨ht, ?_, ?_⟩
    · show (timerFire (ImageElementShell.construct o)).parentNodeSet = true
      unfold timerFire
      rw [ht]
      rfl
    · show (timerFire (ImageElementShell.construct o)).wrapperCount = 1
      unfold timerFire
      rw [ht]
      rfl
  · intro pre post hpre
    have hy := noWrapperYet_run pre _ hpre hy0
    have hs := successHandler_noWrapperState _ hy
    exact ⟨hs.1, (noWrapperState_run post _ hs).2.2.2⟩
  · intro pre post hpre
    have hy := noWrapperYet_run pre _ hpre hy0
    have hf := failHandler_noWrapperState _ hy
    exact ⟨hf.1, (noWrapperState_run post _ hf).2.2.2⟩
  · intro hcase
    have ht : (ImageElementShell.construct o).timer = none := by
      rcases hcase with h | h <;> simp [ImageElementShell.construct, h]
    exact ⟨ht, fun evs => (noWrapperState_run evs _ ⟨ht, hy0⟩).2.2.2⟩

/-- Witness for claim C5: the armed shell whose loader succeeds before the
timer, and the never-armed shell. -/
theorem claim_C5_witness :
    (ImageElementShell.construct demoOptions).timer = some 300 ∧
    (run (successHandler
        (run (ImageElementShell.construct demoOptions) [Ev.loadStart "u"]))
      [Ev.timer]).wrapperCount = 0 ∧
    (ImageElementShell.construct demoOptionsNoLoading).timer = none := by
  have h1 := (claim_C5 demoOptions).1 ⟨rfl, by decide⟩
  have h2 := (claim_C5 demoOptions).2.1 [Ev.loadStart "u"] [Ev.timer]
    (by intro e he; simp at he; subst he; exact fun hx => Ev.noConfusion hx)
  have h3 := (claim_C5 demoOptionsNoLoading).2.2.2 (Or.inr rfl)
  exact ⟨h1.1, h2.2, h3.1⟩

/-! ## Claim C9 -/

/-- The wrapper invariant of a shell: the two DOM handles are set together,
the number of wrapper nodes in the document is one exactly when the handles
are set, and a still-armed timer means no wrapper exists yet. -/
def wrapperInv (s : ShellState) : Prop :=
  s.placeholderNodeSet = s.parentNodeSet ∧
  s.wrapperCount = (if s.parentNodeSet then 1 else 0) ∧
  (s.timer.isSome = true → s.parentNodeSet = false)

lemma wrapperInv_construct (o : ShellOptions) :
    wrapperInv (ImageElementShell.construct o) :=
  ⟨rfl, rfl, fun _ => rfl⟩

lemma wrapperInv_removeContainerDom (s : ShellState) (h : wrapperInv s) :
    wrapperInv (removeContainerDom s) := by
  obtain ⟨h1, h2, h3⟩ := h
  unfold removeContainerDom
  split
  · exact ⟨h1, h2, h3⟩
  · next hg =>
    simp only [Bool.or_eq_true, Bool.not_eq_true'] at hg
    push_neg at hg
    have hp : s.parentNodeSet = true := by
      cases hP : s.parentNodeSet
      · exact absurd hP hg.1.1
      · rfl
    refine ⟨rfl, ?_, fun _ => rfl⟩
    show s.wrapperCount - 1 = if (false : Bool) then 1 else 0
    rw [h2, hp]
    rfl

lemma wrapperInv_step (s : ShellState) (e : Ev) (h : wrapperInv s) :
    wrapperInv (step s e) := by
  obtain ⟨h1, h2, h3⟩ := h
  cases e with
  | timer =>
    show wrapperInv (timerFire s)
    unfold timerFire
    cases ht : s.timer with
    | none => exact ⟨h1, h2, h3⟩
    | some d =>
      have hp : s.parentNodeSet = false := h3 (by simp [ht])
      have hc : s.wrapperCount = 0 := by rw [h2, hp]; rfl
      refine ⟨rfl, ?_, ?_⟩
      · show s.wrapperCount + 1 = if (true : Bool) then 1 else 0
        rw [hc]
        rfl
      · intro hsome
        simp [createContainerDom] at hsome
  | success =>
    show wrapperInv (successHandler s)
    unfold successHandler
    exact wrapperInv_removeContainerDom _ ⟨h1, h2, by intro hh; simp at hh⟩
  | fail =>
    show wrapperInv (failHandler s).1
    unfold failHandler
    exact wrapperInv_removeContainerDom _ ⟨h1, h2, by intro hh; simp at hh⟩
  | loadStart src => exact ⟨h1, h2, h3⟩
  | thenC lb => exact ⟨h1, h2, h3⟩
  | catchC => exact ⟨h1, h2, h3⟩
  | rafA => exact ⟨h1, h2, h3⟩
  | rafB => exact ⟨h1, h2, h3⟩
  | animEnd =>
    show wrapperInv (animEndEvent s)
    unfold animEndEvent
    split
    · exact wrapperInv_removeContainerDom _ ⟨h1, h2, h3⟩
    · exact ⟨h1, h2, h3⟩

lemma wrapperInv_run (evs : List Ev) :
    ∀ s : ShellState, wrapperInv s → wrapperInv (run s evs) := by
  induction evs with
  | nil => intro s h; exact h
  | cons e r ih => intro s h; exact ih (step s e) (wrapperInv_step s e h)

/-- The number of wrapper nodes plus the pending-timer potential: an upper
bound on how many wrapper removals a run can still perform. -/
def phi (s : ShellState) : Nat :=
  s.wrapperCount + (if s.timer.isSome then 1 else 0)

lemma removeContainerDom_count_le (s : ShellState) :
    (removeContainerDom s).wrapperCount ≤ s.wrapperCount := by
  unfold removeContainerDom
  split
  · exact le_refl _
  · exact Nat.sub_le _ _

lemma phi_step (s : ShellState) (e : Ev) (h : wrapperInv s) :
    phi (step s e) ≤ phi s ∧
    ((step s e).wrapperCount < s.wrapperCount → phi (step s e) + 1 ≤ phi s) := by
  obtain ⟨h1, h2, h3⟩ := h
  cases e with
  | timer =>
    show phi (timerFire s) ≤ phi s ∧ ((timerFire s).wrapperCount < _ → _)
    unfold timerFire
    cases ht : s.timer with
    | none => exact ⟨le_refl _, fun hr => absurd hr (Nat.lt_irrefl _)⟩
    | some d =>
      have hp : s.parentNodeSet = false := h3 (by simp [ht])
      have hc : s.wrapperCount = 0 := by rw [h2, hp]; rfl
      constructor
      · simp [phi, createContainerDom, ht, hc]
      · intro hr
        simp [createContainerDom, hc] at hr
  | success =>
    have hle : (successHandler s).wrapperCount ≤ s.wrapperCount := by
      show (removeContainerDom _).wrapperCount ≤ s.wrapperCount
      exact removeContainerDom_count_le _
    have ht : (successHandler s).timer = none := by simp [successHandler]
    constructor
    · show phi (successHandler s) ≤ phi s
      simp only [phi, ht]
      simp
      omega
    · intro hr
      have hr2 : (successHandler s).wrapperCount < s.wrapperCount := hr
      show phi (successHandler s) + 1 ≤ phi s
      simp only [phi, ht]
      simp
      omega
  | fail =>
    have hle : ((failHandler s).1).wrapperCount ≤ s.wrapperCount := by
      show (removeContainerDom _).wrapperCount ≤ s.wrapperCount
      exact removeContainerDom_count_le _
    have ht : ((failHandler s).1).timer = none := by simp [failHandler]
    constructor
    · show phi (failHandler s).1 ≤ phi s
      simp only [phi, ht]
      simp
      omega
    · intro hr
      have hr2 : ((failHandler s).1).wrapperCount < s.wrapperCount := hr
      show phi (failHandler s).1 + 1 ≤ phi s
      simp only [phi, ht]
      simp
      omega
  | loadStart src => exact ⟨le_refl _, fun hr => absurd hr (Nat.lt_irrefl _)⟩
  | thenC lb => exact ⟨le_refl _, fun hr => absurd hr (Nat.lt_irrefl _)⟩
  | catchC => exact ⟨le_refl _, fun hr => absurd hr (Nat.lt_irrefl _)⟩
  | rafA => exact ⟨le_refl _, fun hr => absurd hr (Nat.lt_irrefl _)⟩
  | rafB => exact ⟨le_refl _, fun hr => absurd hr (Nat.lt_irrefl _)⟩
  | animEnd =>
    have hle : (animEndEvent s).wrapperCount ≤ s.wrapperCount := by
      unfold animEndEvent
      split
      · exact removeContainerDom_count_le _
      · exact le_refl _
    have ht : (animEndEvent s).timer = s.timer := animEndEvent_timer s
    constructor
    · show phi (animEndEvent s) ≤ phi s
      simp only [phi, ht]
      omega
    · intro hr
      have hr2 : (animEndEvent s).wrapperCount < s.wrapperCount := hr
      show phi (animEndEvent s) + 1 ≤ phi s
      simp only [phi, ht]
      omega

lemma removalSteps_le_phi (evs : List Ev) :
    ∀ s : ShellState, wrapperInv s → removalSteps s evs ≤ phi s := by
  induction evs with
  | nil => intro s _; exact Nat.zero_le _
  | cons e r ih =>
    intro s h
    have hstep := phi_step s e h
    have hrec := ih (step s e) (wrapperInv_step s e h)
    show (if (step s e).wrapperCount < s.wrapperCount then 1 else 0)
        + removalSteps (step s e) r ≤ phi s
    by_cases hlt : (step s e).wrapperCount < s.wrapperCount
    · have := hstep.2 hlt
      simp only [hlt, if_true]
      omega
    · simp only [hlt, if_false]
      have := hstep.1
      omega

lemma phi_le (s : ShellState) : phi s ≤ s.wrapperCount + 1 := by
  unfold phi
  split <;> omega

lemma removal_only_at (s : ShellState) (e : Ev)
    (hr : (step s e).wrapperCount < s.wrapperCount) :
    (e = Ev.success ∨ e = Ev.fail ∨ e = Ev.animEnd) ∧
    ((e = Ev.success ∨ e = Ev.fail) → truthy s.animationing = false) := by
  cases e with
  | timer =>
    exfalso
    revert hr
    show ¬ (timerFire s).wrapperCount < s.wrapperCount
    unfold timerFire
    cases s.timer <;> simp [createContainerDom]
  | loadStart src => exact absurd hr (Nat.lt_irrefl _)
  | thenC lb => exact absurd hr (Nat.lt_irrefl _)
  | catchC => exact absurd hr (Nat.lt_irrefl _)
  | rafA => exact absurd hr (Nat.lt_irrefl _)
  | rafB => exact absurd hr (Nat.lt_irrefl _)
  | success =>
    refine ⟨Or.inl rfl, fun _ => ?_⟩
    cases hA : truthy s.animationing with
    | false => rfl
    | true =>
      exfalso
      have heq : (successHandler s).wrapperCount = s.wrapperCount := by
        simp [successHandler, removeContainerDom, hA]
      exact absurd hr (by rw [show (step s Ev.success).wrapperCount
        = (successHandler s).wrapperCount from rfl, heq]; exact Nat.lt_irrefl _)
  | fail =>
    refine ⟨Or.inr (Or.inl rfl), fun _ => ?_⟩
    cases hA : truthy s.animationing with
    | false => rfl
    | true =>
      exfalso
      have heq : ((failHandler s).1).wrapperCount = s.wrapperCount := by
        simp [failHandler, removeContainerDom, hA]
      exact absurd hr (by rw [show (step s Ev.fail).wrapperCount
        = ((failHandler s).1).wrapperCount from rfl, heq]; exact Nat.lt_irrefl _)
  | animEnd =>
    exact ⟨Or.inr (Or.inr rfl), fun hcon => by rcases hcon with hx | hx <;> exact Ev.noConfusion hx⟩

lemma removal_deferred (s : ShellState) (ha : truthy s.animationing = true) :
    (step s Ev.success).wrapperCount = s.wrapperCount ∧
    (step s Ev.fail).wrapperCount = s.wrapperCount := by
  constructor
  · simp [step, successHandler, removeContainerDom, ha]
  · simp [step, failHandler, removeContainerDom, ha]

/-- Claim C9: along every run of a shell from construction, at most one
wrapper container node exists at any time; a wrapper is removed at most
once, and removals happen only at the animationend event or at a loader
success or failure handler, the latter only when no animation is playing —
a settlement during an animation leaves the wrapper in place.
CONFIRMED. -/
theorem claim_C9 (o : ShellOptions) (evs : List Ev) :
    (run (ImageElementShell.construct o) evs).wrapperCount ≤ 1 ∧
    removalSteps (ImageElementShell.construct o) evs ≤ 1 ∧
    (∀ e : Ev, (step (run (ImageElementShell.construct o) evs) e).wrapperCount
        < (run (ImageElementShell.construct o) evs).wrapperCount →
      (e = Ev.success ∨ e = Ev.fail ∨ e = Ev.animEnd) ∧
      ((e = Ev.success ∨ e = Ev.fail) →
        truthy (run (ImageElementShell.construct o) evs).animationing = false)) ∧
    (truthy (run (ImageElementShell.construct o) evs).animationing = true →
      (step (run (ImageElementShell.construct o) evs) Ev.success).wrapperCount
        = (run (ImageElementShell.construct o) evs).wrapperCount ∧
      (step (run (ImageElementShell.construct o) evs) Ev.fail).wrapperCount
        = (run (ImageElementShell.construct o) evs).wrapperCount) := by
  have h0 : wrapperInv (ImageElementShell.construct o) := wrapperInv_construct o
  have hinv := wrapperInv_run evs _ h0
  refine ⟨?_, ?_, ?_, ?_⟩
  · rw [hinv.2.1]
    split <;> omega
  · have hb := removalSteps_le_phi evs _ h0
    have hp := phi_le (ImageElementShell.construct o)
    have hc : (ImageElementShell.construct o).wrapperCount = 0 := rfl
    omega
  · intro e
    exact removal_only_at _ e
  · exact removal_deferred _

/-- Witness for claim C9: after the timer fires and an animation frame
marks the animation as playing, a loader success leaves the single wrapper
in place. -/
theorem claim_C9_witness :
    truthy (run (ImageElementShell.construct demoOptions)
      [Ev.timer, Ev.rafA]).animationing = true ∧
    (step (run (ImageElementShell.construct demoOptions) [Ev.timer, Ev.rafA])
        Ev.success).wrapperCount
      = (run (ImageElementShell.construct demoOptions) [Ev.timer, Ev.rafA]).wrapperCount :=
  ⟨by decide, ((claim_C9 demoOptions [Ev.timer, Ev.rafA]).2.2.2 (by decide)).1⟩

end VueImageLoader
